import Mathlib

/-!
Verification of the `sub_renamer` tool (src/src/main.rs): a shallow embedding
of its data model and operations, with theorems settling the spec's claims.

Modelling conventions:
* `OsStrE` models Rust `OsStr`: either a valid UTF-8 string or an opaque
  non-decodable byte sequence (`invalid`); `toStr` models `OsStr::to_str`.
  An `invalid` value models a byte string with no decodable sub-slices of
  interest; no claim exercises mixed-validity names, so its `extension`/stem
  are modelled as undecodable.
* `FsPath` models `PathBuf` as a root flag plus a list of normal components
  (paths are taken as parsed/normalized: no `.` components mid-path).
* `RegexM` models a compiled `regex::Regex` abstractly by its
  `captures` function: `captures name = some caps` exactly when the pattern
  matches `name`; `caps` lists, per capture-group index (index 0 = whole
  match), `some text` for a participating group and `none` otherwise,
  mirroring `Captures::get` returning `Option<Match>`.
* Character-level helpers (`splitChar`, `trimChars`, `lowerChar`) implement
  the string operations the Rust code uses (`str::split(',')`, `str::trim`,
  `str::to_lowercase`) on `List Char`; they agree with the Rust ones on the
  ASCII inputs every claim is about.
* The filesystem is modelled as the list of existing paths (`world`), and
  `fs::rename`'s success or failure as an oracle `renameOk` passed in.
-/

/-- A Rust `OsStr`: valid UTF-8 text, or an opaque non-UTF-8 byte sequence. -/
inductive OsStrE where
  | valid (s : String)
  | invalid (bytes : List Nat)
deriving DecidableEq, Repr

/-- Models `OsStr::to_str`: `some` exactly for valid UTF-8. -/
def OsStrE.toStr : OsStrE → Option String
  | .valid s => some s
  | .invalid _ => none

/-- Models Rust `PathBuf`: absolute-root flag and the list of components. -/
structure FsPath where
  root : Bool
  components : List OsStrE
deriving DecidableEq, Repr

/-- Models `Path::file_name`: the last component, unless it is `.` or `..`. -/
def FsPath.fileName (p : FsPath) : Option OsStrE :=
  match p.components.getLast? with
  | some c => if c = OsStrE.valid "." ∨ c = OsStrE.valid ".." then none else some c
  | none => none

/-- Models `Path::parent`: drop the last component; `none` for `/` and the empty path. -/
def FsPath.parent (p : FsPath) : Option FsPath :=
  if p.components.isEmpty then none else some ⟨p.root, p.components.dropLast⟩

/-- Models `Path::join` with a single file-name component. -/
def FsPath.join (p : FsPath) (c : OsStrE) : FsPath :=
  ⟨p.root, p.components ++ [c]⟩

/-- `Path::new(".")`, the fallback parent used by `plan_renames`. -/
def curDirPath : FsPath := ⟨false, [OsStrE.valid "."]⟩

/-- ASCII lowercasing of one character, as `str::to_lowercase` acts on ASCII. -/
def lowerChar (c : Char) : Char :=
  if 'A' ≤ c ∧ c ≤ 'Z' then Char.ofNat (c.toNat + 32) else c

/-- Trim leading and trailing whitespace, as `str::trim` acts on ASCII input. -/
def trimChars (cs : List Char) : List Char :=
  ((cs.dropWhile Char.isWhitespace).reverse.dropWhile Char.isWhitespace).reverse

/-- Models `str::split sep`: split at every separator, keeping empty pieces. -/
def splitChar (sep : Char) : List Char → List (List Char)
  | [] => [[]]
  | c :: rest =>
    let r := splitChar sep rest
    if c = sep then [] :: r
    else
      match r with
      | h :: t => (c :: h) :: t
      | [] => [[c]]

/-- Split a file name at its last `.` (which must not be the first character)
into `(stem, extension)`, giving Rust's `file_stem`/`extension` semantics. -/
def splitLastDot (cs : List Char) : Option (List Char × List Char) :=
  let r := cs.reverse
  match r.dropWhile (fun c => decide (c ≠ '.')) with
  | [] => none
  | _ :: stemRev =>
    if stemRev.isEmpty then none
    else some (stemRev.reverse, (r.takeWhile (fun c => decide (c ≠ '.'))).reverse)

/-- The extension of a file-name string, per Rust `Path::extension` rules. -/
def extCore (s : String) : Option String :=
  (splitLastDot s.data).map (fun pr => String.mk pr.2)

/-- The stem of a file-name string, per Rust `Path::file_stem` rules. -/
def fileStemStr (s : String) : String :=
  match splitLastDot s.data with
  | some pr => String.mk pr.1
  | none => s

/-- Extension of an `OsStr` file name (non-decodable names modelled as giving none). -/
def OsStrE.extensionOs : OsStrE → Option OsStrE
  | .valid s => (extCore s).map OsStrE.valid
  | .invalid _ => none

/-- Stem of an `OsStr` file name. -/
def OsStrE.stemOs : OsStrE → OsStrE
  | .valid s => .valid (fileStemStr s)
  | .invalid b => .invalid b

/-- Models `Path::extension`. -/
def FsPath.extension (p : FsPath) : Option OsStrE :=
  p.fileName.bind OsStrE.extensionOs

/-- Models `Path::file_stem`. -/
def FsPath.file_stem (p : FsPath) : Option OsStrE :=
  p.fileName.map OsStrE.stemOs

/-- `path.extension().and_then(OsStr::to_str).map(str::to_lowercase)` as used
by `categorize_files`. -/
def FsPath.extLower (p : FsPath) : Option String :=
  (p.extension.bind OsStrE.toStr).map (fun s => String.mk (s.data.map lowerChar))

/-- A compiled regular expression, abstracted by its `captures` behaviour. -/
structure RegexM where
  captures : String → Option (List (Option String))

/-- The command-line arguments (struct `Args` in main.rs; only the fields the
core uses). -/
structure Args where
  srt_regex : Option String
  mkv_regex : Option String
  srt_ext : String
  video_ext : String
  directory : FsPath
  recursive : Bool
  dry_run : Bool
  quiet : Bool
  verbose : Bool

/-- Struct `FileInfo` in main.rs. -/
structure FileInfo where
  path : FsPath
  episode_id : String
  extension : String
deriving DecidableEq, Repr

/-- Struct `RenameOperation` in main.rs (`from`/`to` renamed `src`/`tgt`
because `from` is a Lean keyword). -/
structure RenameOperation where
  src : FsPath
  tgt : FsPath
  episode_id : String
deriving DecidableEq, Repr

/-- Struct `SubtitleRenamer` in main.rs. -/
structure SubtitleRenamer where
  args : Args
  srt_regex : RegexM
  mkv_regex : RegexM
  srt_extensions : List String
  video_extensions : List String

/-- `SubtitleRenamer::parse_extensions`: split on commas, trim, lowercase,
drop empty tokens. -/
def parse_extensions (ext_str : String) : List String :=
  ((splitChar ',' ext_str.data).map
      (fun cs => String.mk ((trimChars cs).map lowerChar))).filter
    (fun s => decide (s ≠ ""))

/-- Construction errors of `SubtitleRenamer::new` (the `anyhow::bail!` /
`with_context` failure cases). -/
inductive NewError where
  | missingPattern
  | invalidSrtPattern (s : String)
  | invalidMkvPattern (s : String)
  | directoryNotFound (d : FsPath)
deriving DecidableEq, Repr

/-- `SubtitleRenamer::new`. Regex compilation and directory existence are
external collaborators, passed as `compile` and `dirExists`. The final
`.error .missingPattern` arm is unreachable (the guard above covers it) and
models the `unwrap`. -/
def SubtitleRenamer.new (compile : String → Option RegexM)
    (dirExists : FsPath → Bool) (args : Args) : Except NewError SubtitleRenamer :=
  if args.srt_regex.isNone ∧ args.mkv_regex.isNone then
    .error .missingPattern
  else
    match args.srt_regex.or args.mkv_regex, args.mkv_regex.or args.srt_regex with
    | some srt_re_str, some mkv_re_str =>
      match compile srt_re_str with
      | none => .error (.invalidSrtPattern srt_re_str)
      | some srt_regex =>
        match compile mkv_re_str with
        | none => .error (.invalidMkvPattern mkv_re_str)
        | some mkv_regex =>
          let srt_extensions := parse_extensions args.srt_ext
          let video_extensions := parse_extensions args.video_ext
          if dirExists args.directory then
            .ok ⟨args, srt_regex, mkv_regex, srt_extensions, video_extensions⟩
          else
            .error (.directoryNotFound args.directory)
    | _, _ => .error .missingPattern

/-- `SubtitleRenamer::extract_episode_id`: file name, decoded to UTF-8, run
through the role's regex; the first capture group's text. -/
def extract_episode_id (r : SubtitleRenamer) (path : FsPath)
    (isSubtitle : Bool) : Option String :=
  (path.fileName.bind OsStrE.toStr).bind fun file_name =>
    let re := if isSubtitle then r.srt_regex else r.mkv_regex
    (re.captures file_name).bind fun cap => (cap[1]?).join

/-- The body of the `for path in files` loop of
`SubtitleRenamer::categorize_files`. -/
def categorize_step (r : SubtitleRenamer) (acc : List FileInfo × List FileInfo)
    (path : FsPath) : List FileInfo × List FileInfo :=
  match path.extLower with
  | some extension =>
    if extension ∈ r.srt_extensions then
      match extract_episode_id r path true with
      | some episode_id => (acc.1 ++ [⟨path, episode_id, extension⟩], acc.2)
      | none => acc
    else if extension ∈ r.video_extensions then
      match extract_episode_id r path false with
      | some episode_id => (acc.1, acc.2 ++ [⟨path, episode_id, extension⟩])
      | none => acc
    else acc
  | none => acc

/-- `SubtitleRenamer::categorize_files`, with the enumerated file list passed
in (`get_files` is the filesystem collaborator). -/
def categorize_files (r : SubtitleRenamer) (files : List FsPath) :
    List FileInfo × List FileInfo :=
  files.foldl (categorize_step r) ([], [])

/-- The `HashMap<String, &FileInfo>` built by `plan_renames` via `collect`:
a fold of inserts, later insertions overwriting earlier ones. -/
def build_video_map (videos : List FileInfo) : String → Option FileInfo :=
  videos.foldl (fun m v => fun q => if q = v.episode_id then some v else m q)
    (fun _ => none)

/-- The messages the tool prints, by kind (stdout/stderr formatting elided). -/
inductive Msg where
  | noVideo (episode_id : String) (sub : FsPath)
  | conflictExists (tgt : FsPath) (episode_id : String)
  | dryRunMsg (src : FsPath) (tgt : FsPath)
  | renamedMsg (src : FsPath) (tgt : FsPath)
  | renameErrorMsg (src : FsPath)
  | nothingToRename
  | summarySuccess (n : Nat)
  | summaryErrors (n : Nat)
  | dryRunNotice
deriving DecidableEq, Repr

/-- The body of the `for subtitle in &subtitles` loop of
`SubtitleRenamer::plan_renames`. -/
def plan_step (r : SubtitleRenamer) (video_map : String → Option FileInfo)
    (acc : List RenameOperation × List Msg) (subtitle : FileInfo) :
    List RenameOperation × List Msg :=
  match video_map subtitle.episode_id with
  | some video =>
    let video_stem := (video.path.file_stem.bind OsStrE.toStr).getD "unknown"
    let new_name := video_stem ++ "." ++ subtitle.extension
    let new_path := (subtitle.path.parent.getD curDirPath).join (OsStrE.valid new_name)
    if subtitle.path ≠ new_path then
      (acc.1 ++ [⟨subtitle.path, new_path, subtitle.episode_id⟩], acc.2)
    else acc
  | none =>
    (acc.1,
     acc.2 ++ (if r.args.quiet then [] else [Msg.noVideo subtitle.episode_id subtitle.path]))

/-- `SubtitleRenamer::plan_renames`: returns the planned operations together
with the warnings printed for unmatched subtitles. -/
def plan_renames (r : SubtitleRenamer) (subtitles videos : List FileInfo) :
    List RenameOperation × List Msg :=
  subtitles.foldl (plan_step r (build_video_map videos)) ([], [])

/-- Executor state: the filesystem (list of existing paths), the two
counters, and the messages printed so far. -/
structure ExecState where
  world : List FsPath
  successCount : Nat
  errorCount : Nat
  msgs : List Msg
deriving DecidableEq, Repr

/-- One iteration of the loop in `SubtitleRenamer::execute_renames`:
conflict check, then dry-run or actual rename with accounting. `renameOk`
is the `fs::rename` success oracle; a successful rename removes the source
from the world and adds the destination. -/
def exec_step (r : SubtitleRenamer) (renameOk : FsPath → FsPath → Bool)
    (st : ExecState) (op : RenameOperation) : ExecState :=
  if op.tgt ∈ st.world ∧ op.src ≠ op.tgt then
    { st with
      msgs := st.msgs ++
        (if r.args.quiet then [] else [Msg.conflictExists op.tgt op.episode_id]) }
  else if r.args.dry_run then
    { st with
      msgs := st.msgs ++ [Msg.dryRunMsg op.src op.tgt],
      successCount := st.successCount + 1 }
  else if renameOk op.src op.tgt then
    { world := (st.world.filter (fun q => decide (q ≠ op.src))) ++ [op.tgt],
      successCount := st.successCount + 1,
      errorCount := st.errorCount,
      msgs := st.msgs ++
        (if r.args.quiet then [] else [Msg.renamedMsg op.src op.tgt]) }
  else
    { st with
      msgs := st.msgs ++ [Msg.renameErrorMsg op.src],
      errorCount := st.errorCount + 1 }

/-- `SubtitleRenamer::execute_renames`: early return on an empty list, the
per-operation loop, then the summary; always returns `Ok`. -/
def execute_renames (r : SubtitleRenamer) (renameOk : FsPath → FsPath → Bool)
    (world : List FsPath) (operations : List RenameOperation) :
    Except String ExecState :=
  if operations.isEmpty then
    .ok { world := world, successCount := 0, errorCount := 0,
          msgs := if r.args.quiet then [] else [Msg.nothingToRename] }
  else
    let st := operations.foldl (exec_step r renameOk)
      { world := world, successCount := 0, errorCount := 0, msgs := [] }
    .ok { st with
          msgs := st.msgs ++
            (if r.args.quiet then [] else
              [Msg.summarySuccess st.successCount] ++
                (if st.errorCount > 0 then [Msg.summaryErrors st.errorCount] else []) ++
                (if r.args.dry_run then [Msg.dryRunNotice] else [])) }

/-- Spec-side description of classifying one path in the subtitle role:
extension present and configured, identifier extracted. Used to characterize
`categorize_files`. -/
def subClassify (r : SubtitleRenamer) (path : FsPath) : Option FileInfo :=
  match path.extLower with
  | some extension =>
    if extension ∈ r.srt_extensions then
      (extract_episode_id r path true).map (fun episode_id => ⟨path, episode_id, extension⟩)
    else none
  | none => none

/-- Spec-side description of classifying one path in the video role: the
subtitle branch takes priority, so the extension must not be a subtitle
extension. -/
def vidClassify (r : SubtitleRenamer) (path : FsPath) : Option FileInfo :=
  match path.extLower with
  | some extension =>
    if extension ∉ r.srt_extensions ∧ extension ∈ r.video_extensions then
      (extract_episode_id r path false).map (fun episode_id => ⟨path, episode_id, extension⟩)
    else none
  | none => none

/-- Spec-side description of planning one subtitle: look its identifier up
in the index; if a video is found and the computed destination (parent
directory + video stem + "." + subtitle extension) differs from the source,
an operation results; otherwise none. -/
def plan_renames_spec (video_map : String → Option FileInfo)
    (subtitle : FileInfo) : Option RenameOperation :=
  match video_map subtitle.episode_id with
  | some video =>
    let video_stem := (video.path.file_stem.bind OsStrE.toStr).getD "unknown"
    let new_path := (subtitle.path.parent.getD curDirPath).join
      (OsStrE.valid (video_stem ++ "." ++ subtitle.extension))
    if subtitle.path ≠ new_path then
      some ⟨subtitle.path, new_path, subtitle.episode_id⟩
    else none
  | none => none

/-- Spec-side description of construction once the two effective pattern
strings have been resolved by the fallback rule: compile both, parse the
extension lists, check the directory. Used to state the fallback claim. -/
def new_resolved (compile : String → Option RegexM) (dirExists : FsPath → Bool)
    (args : Args) (srt_re_str mkv_re_str : String) : Except NewError SubtitleRenamer :=
  match compile srt_re_str with
  | none => .error (.invalidSrtPattern srt_re_str)
  | some srt_regex =>
    match compile mkv_re_str with
    | none => .error (.invalidMkvPattern mkv_re_str)
    | some mkv_regex =>
      if dirExists args.directory then
        .ok ⟨args, srt_regex, mkv_regex, parse_extensions args.srt_ext,
             parse_extensions args.video_ext⟩
      else
        .error (.directoryNotFound args.directory)

/-- Fixture: the behaviour of the compiled pattern `S(\d{2})E(\d{2})` on the
file names used below (two capture groups; group 1 is the season). -/
def reSeasonGroups : RegexM :=
  ⟨fun s =>
    if s = "Show.S01E05.1080p.mkv" ∨ s = "subtitle.S01E05.srt" then
      some [some "S01E05", some "01", some "05"]
    else none⟩

/-- Fixture: the behaviour of the compiled pattern `(x*)` on names that do
not contain `x`: it matches (at position 0) with an empty first group. -/
def reEmptyCap : RegexM := ⟨fun _ => some [some "", some ""]⟩

/-- Fixture arguments (both patterns supplied, defaults otherwise). -/
def fixArgs : Args :=
  ⟨some "pat", some "pat", "srt", "mkv", ⟨false, [OsStrE.valid "d"]⟩,
   false, false, false, false⟩

/-- Fixture arguments with dry-run and quiet both enabled. -/
def fixArgsDryQuiet : Args :=
  ⟨some "pat", some "pat", "srt", "mkv", ⟨false, [OsStrE.valid "d"]⟩,
   false, true, true, false⟩

/-- Fixture renamer with the two-group season pattern. -/
def rFix : SubtitleRenamer := ⟨fixArgs, reSeasonGroups, reSeasonGroups, ["srt"], ["mkv"]⟩

/-- Fixture renamer whose pattern's first capture group matches empty text. -/
def rEmptyCap : SubtitleRenamer := ⟨fixArgs, reEmptyCap, reEmptyCap, ["srt"], ["mkv"]⟩

/-- Fixture renamer with overlapping subtitle and video extension sets. -/
def rOverlap : SubtitleRenamer := ⟨fixArgs, reSeasonGroups, reSeasonGroups, ["srt"], ["srt"]⟩

/-- Fixture renamer with dry-run and quiet enabled. -/
def rDryQuiet : SubtitleRenamer :=
  ⟨fixArgsDryQuiet, reSeasonGroups, reSeasonGroups, ["srt"], ["mkv"]⟩

/-- Fixture paths. -/
def pSub : FsPath := ⟨false, [OsStrE.valid "d", OsStrE.valid "subtitle.S01E05.srt"]⟩

def pVid : FsPath := ⟨false, [OsStrE.valid "d", OsStrE.valid "Show.S01E05.1080p.mkv"]⟩

def pTgt : FsPath := ⟨false, [OsStrE.valid "d", OsStrE.valid "Show.S01E05.1080p.srt"]⟩

def pEmptyCap : FsPath := ⟨false, [OsStrE.valid "a.srt"]⟩

def pNoName : FsPath := ⟨true, []⟩

def pBadName : FsPath := ⟨false, [OsStrE.invalid [255, 254]]⟩

def pNoMatch : FsPath := ⟨false, [OsStrE.valid "Show.no.match.mkv"]⟩

/-- Fixture operations and executor state. -/
def opFix : RenameOperation := ⟨pSub, pTgt, "01"⟩

def opConflictFix : RenameOperation := ⟨pSub, pVid, "01"⟩

def stFix : ExecState := ⟨[pSub, pVid], 0, 0, []⟩

/-- Rename oracle that always fails, and one that always succeeds. -/
def kFail : FsPath → FsPath → Bool := fun _ _ => false

def kOk : FsPath → FsPath → Bool := fun _ _ => true

/-- Fixture regex compiler and directory-existence oracle. -/
def fixCompile : String → Option RegexM := fun _ => some reSeasonGroups

def fixDirX : FsPath → Bool := fun _ => true

/-- Fixture arguments with only the subtitle pattern supplied. -/
def fixArgsOnlySrt : Args :=
  ⟨some "pat", none, "srt", "mkv", ⟨false, [OsStrE.valid "d"]⟩,
   false, false, false, false⟩

/-- Fixture arguments with neither pattern supplied. -/
def fixArgsNoPat : Args :=
  ⟨none, none, "srt", "mkv", ⟨false, [OsStrE.valid "d"]⟩,
   false, false, false, false⟩

/-- One classifier loop iteration appends the spec-side classification of the
path to the corresponding accumulator component. -/
theorem categorize_step_eq (r : SubtitleRenamer) (acc : List FileInfo × List FileInfo)
    (path : FsPath) :
    categorize_step r acc path =
      (acc.1 ++ (subClassify r path).toList, acc.2 ++ (vidClassify r path).toList) := by
  unfold categorize_step subClassify vidClassify
  rcases h : path.extLower with _ | extension
  · simp
  · by_cases hs : extension ∈ r.srt_extensions
    · rcases he : extract_episode_id r path true with _ | episode_id <;> simp [hs, he]
    · by_cases hv : extension ∈ r.video_extensions
      · rcases he : extract_episode_id r path false with _ | episode_id <;> simp [hs, hv, he]
      · simp [hs, hv]

/-- The classifier is the spec-side per-path classification, mapped over the
input in order. -/
theorem categorize_files_eq (r : SubtitleRenamer) (files : List FsPath) :
    categorize_files r files =
      (files.filterMap (subClassify r), files.filterMap (vidClassify r)) := by
  suffices h : ∀ acc : List FileInfo × List FileInfo,
      files.foldl (categorize_step r) acc =
        (acc.1 ++ files.filterMap (subClassify r),
         acc.2 ++ files.filterMap (vidClassify r)) by
    simpa [categorize_files] using h ([], [])
  induction files with
  | nil => intro acc; simp
  | cons p ps ih =>
    intro acc
    rw [List.foldl_cons, categorize_step_eq, ih]
    rcases hs : subClassify r p with _ | fi <;>
      rcases hv : vidClassify r p with _ | fv <;>
        simp [hs, hv, List.filterMap_cons]

/-- One planner loop iteration appends the spec-side plan for the subtitle to
the operations component. -/
theorem plan_step_fst (r : SubtitleRenamer) (m : String → Option FileInfo)
    (acc : List RenameOperation × List Msg) (subtitle : FileInfo) :
    (plan_step r m acc subtitle).1 = acc.1 ++ (plan_renames_spec m subtitle).toList := by
  unfold plan_step plan_renames_spec
  rcases h : m subtitle.episode_id with _ | video
  · simp
  · simp only []
    split <;> simp

/-- The planner's operation list is the spec-side per-subtitle plan, mapped
over the subtitles in input order. -/
theorem plan_renames_fst (r : SubtitleRenamer) (subtitles videos : List FileInfo) :
    (plan_renames r subtitles videos).1 =
      subtitles.filterMap (plan_renames_spec (build_video_map videos)) := by
  suffices h : ∀ acc : List RenameOperation × List Msg,
      (subtitles.foldl (plan_step r (build_video_map videos)) acc).1 =
        acc.1 ++ subtitles.filterMap (plan_renames_spec (build_video_map videos)) by
    simpa [plan_renames] using h ([], [])
  induction subtitles with
  | nil => intro acc; simp
  | cons s ss ih =>
    intro acc
    rw [List.foldl_cons, ih, plan_step_fst]
    rcases hs : plan_renames_spec (build_video_map videos) s with _ | op <;>
      simp [hs, List.filterMap_cons]

/-- The fold of map inserts looks up as: last matching insert wins, falling
back to the initial map. -/
theorem build_video_map_go (vs : List FileInfo) :
    ∀ (m : String → Option FileInfo) (q : String),
      vs.foldl (fun m v => fun p => if p = v.episode_id then some v else m p) m q =
        ((vs.filter (fun v => v.episode_id == q)).getLast?).or (m q) := by
  induction vs using List.reverseRecOn with
  | nil => intro m q; simp
  | append_singleton vs v ih =>
    intro m q
    rw [List.foldl_append]
    simp only [List.foldl_cons, List.foldl_nil]
    by_cases h : q = v.episode_id
    · simp [h, List.filter_append, List.getLast?_concat]
    · have hne : (v.episode_id == q) = false := by
        simp [beq_iff_eq]; exact fun hc => h hc.symm
      simp [h, ih, List.filter_append, hne]

/-- In dry-run mode one executor step leaves the filesystem and the error
count alone, counts one success unless the operation is a conflict, keeps
all earlier messages, and reports the would-be rename whenever the operation
is not a conflict. -/
theorem exec_step_dry (r : SubtitleRenamer) (k : FsPath → FsPath → Bool)
    (st : ExecState) (op : RenameOperation) (hdry : r.args.dry_run = true) :
    (exec_step r k st op).world = st.world ∧
    (exec_step r k st op).errorCount = st.errorCount ∧
    (exec_step r k st op).successCount =
      st.successCount + (if op.tgt ∈ st.world ∧ op.src ≠ op.tgt then 0 else 1) ∧
    (∀ m ∈ st.msgs, m ∈ (exec_step r k st op).msgs) ∧
    (¬(op.tgt ∈ st.world ∧ op.src ≠ op.tgt) →
      Msg.dryRunMsg op.src op.tgt ∈ (exec_step r k st op).msgs) := by
  unfold exec_step
  by_cases hc : op.tgt ∈ st.world ∧ op.src ≠ op.tgt
  · by_cases hq : r.args.quiet <;>
      simp [hc, hq, hdry] <;>
      exact fun m hm => Or.inl hm
  · simp [hc, hdry]
    exact fun m hm => Or.inl hm

/-- In dry-run mode the executor loop leaves the filesystem and the error
count alone, counts one success per non-conflicting operation, keeps all
earlier messages, and reports every non-conflicting would-be rename. -/
theorem dry_fold_aux (r : SubtitleRenamer) (k : FsPath → FsPath → Bool)
    (hdry : r.args.dry_run = true) (ops : List RenameOperation) :
    ∀ st : ExecState,
      (ops.foldl (exec_step r k) st).world = st.world ∧
      (ops.foldl (exec_step r k) st).errorCount = st.errorCount ∧
      (ops.foldl (exec_step r k) st).successCount =
        st.successCount + (ops.filter (fun op =>
          decide (¬(op.tgt ∈ st.world ∧ op.src ≠ op.tgt)))).length ∧
      (∀ m ∈ st.msgs, m ∈ (ops.foldl (exec_step r k) st).msgs) ∧
      (∀ op ∈ ops, ¬(op.tgt ∈ st.world ∧ op.src ≠ op.tgt) →
        Msg.dryRunMsg op.src op.tgt ∈ (ops.foldl (exec_step r k) st).msgs) := by
  induction ops with
  | nil => intro st; simp
  | cons op rest ih =>
    intro st
    obtain ⟨sw, se, ssc, ssub, sdmsg⟩ := exec_step_dry r k st op hdry
    obtain ⟨hw, he, hsc, hsub, hdmsg⟩ := ih (exec_step r k st op)
    rw [List.foldl_cons]
    refine ⟨by rw [hw, sw], by rw [he, se], ?_, ?_, ?_⟩
    · rw [hsc, ssc]
      simp only [sw, List.filter_cons]
      by_cases hc : op.tgt ∈ st.world ∧ op.src ≠ op.tgt <;> simp [hc] <;> omega
    · intro m hm
      exact hsub _ (ssub _ hm)
    · intro o ho hnc
      rcases List.mem_cons.mp ho with rfl | hmem
      · exact hsub _ (sdmsg hnc)
      · simp only [sw] at hdmsg
        exact hdmsg o hmem hnc

/-- Decomposition of a successful extraction: the file name decoded, the
pattern matched, and the first capture group participated with exactly the
returned text. -/
theorem extract_eq_some (r : SubtitleRenamer) (p : FsPath) (b : Bool)
    (episode_id : String) (h : extract_episode_id r p b = some episode_id) :
    ∃ name cap, p.fileName.bind OsStrE.toStr = some name ∧
      (if b then r.srt_regex else r.mkv_regex).captures name = some cap ∧
      cap[1]?.join = some episode_id := by
  rw [extract_episode_id] at h
  rcases hn : p.fileName.bind OsStrE.toStr with _ | name
  · rw [hn] at h
    simp at h
  · rw [hn] at h
    simp only [Option.some_bind] at h
    rcases hcap : (if b then r.srt_regex else r.mkv_regex).captures name with _ | cap
    · rw [hcap] at h
      simp at h
    · rw [hcap] at h
      simp only [Option.some_bind] at h
      exact ⟨name, cap, rfl, hcap, h⟩

/-- C7: extension-list parsing splits on commas, trims whitespace from each
token, lowercases it, and drops empty tokens: "srt,ass,vtt" yields
srt/ass/vtt, "mkv, mp4 , avi" yields mkv/mp4/avi, lowercasing applies, and
the empty string yields the empty set. -/
theorem c7_parse_extensions_behaviour :
    parse_extensions "srt,ass,vtt" = ["srt", "ass", "vtt"] ∧
    parse_extensions "mkv, mp4 , avi" = ["mkv", "mp4", "avi"] ∧
    parse_extensions " SRT ,,Ass" = ["srt", "ass"] ∧
    parse_extensions "" = [] := by
  refine ⟨by decide, by decide, by decide, by decide⟩

/-- C2: the identifier-to-video index built by the planner maps each episode
identifier to the video occurring latest in input order among those sharing
it (last-write-wins). -/
theorem c2_video_map_last_write_wins (videos : List FileInfo) (q : String) :
    build_video_map videos q =
      (videos.filter (fun v => v.episode_id == q)).getLast? := by
  have h := build_video_map_go videos (fun _ => none) q
  simpa [build_video_map] using h

/-- C3: the planner emits one operation for a subtitle exactly when the index
holds a video with its identifier and the computed destination (parent
directory + video base name + "." + subtitle extension) differs from the
source, with operations in subtitle-input order and unmatched subtitles
yielding none. -/
theorem c3_plan_renames_characterization (r : SubtitleRenamer)
    (subtitles videos : List FileInfo) :
    (plan_renames r subtitles videos).1 =
      subtitles.filterMap (plan_renames_spec (build_video_map videos)) :=
  plan_renames_fst r subtitles videos

/-- C10: identifier extraction is total over all paths and returns absence
(not a failure) when the path has no file-name component or the file name is
not UTF-8 decodable. -/
theorem c10_extract_total (r : SubtitleRenamer) (isSub : Bool) (p : FsPath) :
    (p.fileName = none → extract_episode_id r p isSub = none) ∧
    (∀ bs, p.fileName = some (OsStrE.invalid bs) →
      extract_episode_id r p isSub = none) := by
  constructor
  · intro h
    simp [extract_episode_id, h]
  · intro bs h
    simp [extract_episode_id, h, OsStrE.toStr]

/-- C10 witness: a root path with no file name, and a path whose file name is
not UTF-8, both yield absence. -/
theorem c10_witness :
    (pNoName.fileName = none ∧ extract_episode_id rFix pNoName true = none) ∧
    (pBadName.fileName = some (OsStrE.invalid [255, 254]) ∧
      extract_episode_id rFix pBadName true = none) :=
  ⟨⟨by decide, (c10_extract_total rFix true pNoName).1 (by decide)⟩,
   ⟨by decide, (c10_extract_total rFix true pBadName).2 [255, 254] (by decide)⟩⟩

/-- C6: extraction returns exactly the first capture group's participating
text (never a later group's); a filename the pattern does not match, or a
match whose first group does not participate, yields absence. -/
theorem c6_first_capture_group (r : SubtitleRenamer) (p : FsPath) (isSub : Bool) :
    (∀ episode_id, extract_episode_id r p isSub = some episode_id ↔
      ∃ name cap, p.fileName.bind OsStrE.toStr = some name ∧
        (if isSub then r.srt_regex else r.mkv_regex).captures name = some cap ∧
        cap[1]?.join = some episode_id) ∧
    (∀ name, p.fileName.bind OsStrE.toStr = some name →
      (if isSub then r.srt_regex else r.mkv_regex).captures name = none →
      extract_episode_id r p isSub = none) ∧
    (∀ name cap, p.fileName.bind OsStrE.toStr = some name →
      (if isSub then r.srt_regex else r.mkv_regex).captures name = some cap →
      cap[1]?.join = none →
      extract_episode_id r p isSub = none) := by
  refine ⟨?_, ?_, ?_⟩
  · intro episode_id
    constructor
    · exact extract_eq_some r p isSub episode_id
    · rintro ⟨name, cap, hn, hcap, hjoin⟩
      unfold extract_episode_id
      rw [hn]
      simp only [Option.some_bind, hcap]
      exact hjoin
  · intro name hn hcap
    simp [extract_episode_id, hn, hcap]
  · intro name cap hn hcap hjoin
    unfold extract_episode_id
    rw [hn]
    simp only [Option.some_bind, hcap]
    exact hjoin

/-- C6 witness: the two-group pattern yields the first group's text "01"
(not the second group's "05"), and a non-matching name yields absence. -/
theorem c6_witness :
    extract_episode_id rFix pVid false = some "01" ∧
    extract_episode_id rFix pNoMatch false = none :=
  ⟨((c6_first_capture_group rFix pVid false).1 "01").mpr
      ⟨"Show.S01E05.1080p.mkv", [some "S01E05", some "01", some "05"],
       by decide, by decide, by decide⟩,
   (c6_first_capture_group rFix pNoMatch false).2.1 "Show.no.match.mkv"
     (by decide) (by decide)⟩

/-- C8: construction fails when both pattern strings are absent; otherwise
the effective subtitle pattern is the subtitle pattern if supplied, else the
video pattern, and symmetrically for the video pattern — one supplied
pattern serves both roles. -/
theorem c8_pattern_fallback (compile : String → Option RegexM)
    (dirX : FsPath → Bool) (args : Args) :
    (args.srt_regex = none → args.mkv_regex = none →
      SubtitleRenamer.new compile dirX args = .error .missingPattern) ∧
    (∀ s, args.srt_regex = some s → args.mkv_regex = none →
      SubtitleRenamer.new compile dirX args = new_resolved compile dirX args s s) ∧
    (∀ v, args.srt_regex = none → args.mkv_regex = some v →
      SubtitleRenamer.new compile dirX args = new_resolved compile dirX args v v) ∧
    (∀ s v, args.srt_regex = some s → args.mkv_regex = some v →
      SubtitleRenamer.new compile dirX args = new_resolved compile dirX args s v) := by
  refine ⟨?_, ?_, ?_, ?_⟩
  · intro h1 h2
    simp [SubtitleRenamer.new, h1, h2]
  · intro s h1 h2
    simp [SubtitleRenamer.new, new_resolved, h1, h2, Option.or]
  · intro v h1 h2
    simp [SubtitleRenamer.new, new_resolved, h1, h2, Option.or]
  · intro s v h1 h2
    simp [SubtitleRenamer.new, new_resolved, h1, h2, Option.or]

/-- C8 witness: with no pattern construction fails; with only a subtitle
pattern that pattern is used for both roles. -/
theorem c8_witness :
    SubtitleRenamer.new fixCompile fixDirX fixArgsNoPat = .error .missingPattern ∧
    SubtitleRenamer.new fixCompile fixDirX fixArgsOnlySrt =
      new_resolved fixCompile fixDirX fixArgsOnlySrt "pat" "pat" :=
  ⟨(c8_pattern_fallback fixCompile fixDirX fixArgsNoPat).1 rfl rfl,
   (c8_pattern_fallback fixCompile fixDirX fixArgsOnlySrt).2.1 "pat" rfl rfl⟩

/-- C9: with overlapping extension sets the subtitle branch takes priority:
no classified video carries an extension from the subtitle set, and a file
whose extension lies in both sets is classified as a subtitle. -/
theorem c9_subtitle_branch_priority (r : SubtitleRenamer) (files : List FsPath)
    (fi : FileInfo) (p : FsPath) (e episode_id : String) :
    (fi ∈ (categorize_files r files).2 → fi.extension ∉ r.srt_extensions) ∧
    (p.extLower = some e → e ∈ r.srt_extensions → e ∈ r.video_extensions →
      extract_episode_id r p true = some episode_id →
      (categorize_files r [p]).1 = [⟨p, episode_id, e⟩] ∧
      (categorize_files r [p]).2 = []) := by
  constructor
  · intro hmem
    rw [categorize_files_eq] at hmem
    rcases List.mem_filterMap.mp hmem with ⟨q, _, hcl⟩
    unfold vidClassify at hcl
    rcases hx : q.extLower with _ | ext
    · simp only [hx] at hcl
      exact Option.noConfusion hcl
    · simp only [hx] at hcl
      by_cases hcond : ext ∉ r.srt_extensions ∧ ext ∈ r.video_extensions
      · rw [if_pos hcond] at hcl
        rcases Option.map_eq_some'.mp hcl with ⟨episode_id, _, hfi⟩
        rw [← hfi]
        exact hcond.1
      · rw [if_neg hcond] at hcl
        cases hcl
  · intro hx hs hv he
    rw [categorize_files_eq]
    constructor
    · simp [List.filterMap_cons, subClassify, hx, hs, he]
    · simp [List.filterMap_cons, vidClassify, hx, hs]

/-- C9 witness: with subtitle and video extension sets both containing
"srt", the fixture subtitle file is classified as a subtitle and never as a
video. -/
theorem c9_witness :
    (pSub.extLower = some "srt" ∧ "srt" ∈ rOverlap.srt_extensions ∧
      "srt" ∈ rOverlap.video_extensions ∧
      extract_episode_id rOverlap pSub true = some "01") ∧
    (categorize_files rOverlap [pSub]).1 = [⟨pSub, "01", "srt"⟩] ∧
    (categorize_files rOverlap [pSub]).2 = [] := by
  refine ⟨⟨by decide, by decide, by decide, by decide⟩, ?_⟩
  exact (c9_subtitle_branch_priority rOverlap [] ⟨pSub, "01", "srt"⟩ pSub
    "srt" "01").2 (by decide) (by decide) (by decide) (by decide)

/-- C1 counterexample: under the pattern `(x*)` (whose first capture group
participates but matches empty text on names without an `x`) the classifier
emits a subtitle ClassifiedFile whose episode_id is the empty string, so the
non-emptiness part of the claim fails. -/
theorem c1_counterexample :
    ∃ fi, fi ∈ (categorize_files rEmptyCap [pEmptyCap]).1 ∧ fi.episode_id = "" :=
  ⟨⟨pEmptyCap, "", "srt"⟩, by decide, rfl⟩

/-- C1 (amended): every emitted ClassifiedFile's episode_id is exactly the
text of the role pattern's first capture group, which must participate in a
match of the file name but may be the empty string. -/
theorem c1_classified_episode_id (r : SubtitleRenamer) (files : List FsPath)
    (fi : FileInfo) :
    (fi ∈ (categorize_files r files).1 →
      ∃ name cap, fi.path.fileName.bind OsStrE.toStr = some name ∧
        r.srt_regex.captures name = some cap ∧
        cap[1]?.join = some fi.episode_id) ∧
    (fi ∈ (categorize_files r files).2 →
      ∃ name cap, fi.path.fileName.bind OsStrE.toStr = some name ∧
        r.mkv_regex.captures name = some cap ∧
        cap[1]?.join = some fi.episode_id) := by
  constructor
  · intro hmem
    rw [categorize_files_eq] at hmem
    rcases List.mem_filterMap.mp hmem with ⟨q, _, hcl⟩
    unfold subClassify at hcl
    rcases hx : q.extLower with _ | ext
    · simp only [hx] at hcl
      exact Option.noConfusion hcl
    · simp only [hx] at hcl
      by_cases hcond : ext ∈ r.srt_extensions
      · rw [if_pos hcond] at hcl
        rcases Option.map_eq_some'.mp hcl with ⟨episode_id, he, hfi⟩
        rcases extract_eq_some r q true episode_id he with ⟨name, cap, hn, hcap, hj⟩
        refine ⟨name, cap, ?_, ?_, ?_⟩
        · rw [← hfi]
          exact hn
        · simpa using hcap
        · rw [← hfi]
          exact hj
      · rw [if_neg hcond] at hcl
        cases hcl
  · intro hmem
    rw [categorize_files_eq] at hmem
    rcases List.mem_filterMap.mp hmem with ⟨q, _, hcl⟩
    unfold vidClassify at hcl
    rcases hx : q.extLower with _ | ext
    · simp only [hx] at hcl
      exact Option.noConfusion hcl
    · simp only [hx] at hcl
      by_cases hcond : ext ∉ r.srt_extensions ∧ ext ∈ r.video_extensions
      · rw [if_pos hcond] at hcl
        rcases Option.map_eq_some'.mp hcl with ⟨episode_id, he, hfi⟩
        rcases extract_eq_some r q false episode_id he with ⟨name, cap, hn, hcap, hj⟩
        refine ⟨name, cap, ?_, ?_, ?_⟩
        · rw [← hfi]
          exact hn
        · simpa using hcap
        · rw [← hfi]
          exact hj
      · rw [if_neg hcond] at hcl
        cases hcl

/-- C1 witness: the empty-group fixture emits a subtitle, and its episode_id
is the (empty) text of the participating first capture group. -/
theorem c1_witness :
    (⟨pEmptyCap, "", "srt"⟩ : FileInfo) ∈ (categorize_files rEmptyCap [pEmptyCap]).1 ∧
    (∃ name cap, (FileInfo.mk pEmptyCap "" "srt").path.fileName.bind OsStrE.toStr = some name ∧
      rEmptyCap.srt_regex.captures name = some cap ∧
      cap[1]?.join = some (FileInfo.mk pEmptyCap "" "srt").episode_id) :=
  ⟨by decide,
   (c1_classified_episode_id rEmptyCap [pEmptyCap] ⟨pEmptyCap, "", "srt"⟩).1 (by decide)⟩

/-- C4: executor accounting: a conflicting operation (destination exists and
differs from the source) changes neither counter; a dry-run or successful
rename increments only the success counter; a failed rename increments only
the error counter; the loop still processes the remaining operations after
any step; and the executor returns success at the top level regardless. -/
theorem c4_executor_accounting (r : SubtitleRenamer) (k : FsPath → FsPath → Bool)
    (st : ExecState) (op : RenameOperation) (world : List FsPath)
    (ops1 ops2 : List RenameOperation) :
    ((op.tgt ∈ st.world ∧ op.src ≠ op.tgt) →
      (exec_step r k st op).successCount = st.successCount ∧
      (exec_step r k st op).errorCount = st.errorCount) ∧
    (¬(op.tgt ∈ st.world ∧ op.src ≠ op.tgt) →
      ((r.args.dry_run = true ∨ k op.src op.tgt = true) →
        (exec_step r k st op).successCount = st.successCount + 1 ∧
        (exec_step r k st op).errorCount = st.errorCount) ∧
      (r.args.dry_run = false → k op.src op.tgt = false →
        (exec_step r k st op).errorCount = st.errorCount + 1 ∧
        (exec_step r k st op).successCount = st.successCount)) ∧
    ((ops1 ++ ops2).foldl (exec_step r k) st =
      ops2.foldl (exec_step r k) (ops1.foldl (exec_step r k) st)) ∧
    (execute_renames r k world ops1).isOk = true := by
  refine ⟨?_, ?_, List.foldl_append .., ?_⟩
  · intro hc
    simp [exec_step, hc]
  · intro hc
    constructor
    · rintro (hd | hk)
      · simp [exec_step, hc, hd]
      · by_cases hd : r.args.dry_run = true <;> simp [exec_step, hc, hd, hk]
    · intro hd hk
      simp [exec_step, hc, hd, hk]
  · unfold execute_renames
    by_cases he : ops1.isEmpty <;> simp [he, Except.isOk, Except.toBool]

/-- C4 witness: a conflicting operation leaves both counters alone, a
successful rename adds one success, a failed rename adds one error, and the
executor still returns success. -/
theorem c4_witness :
    ((exec_step rFix kFail stFix opConflictFix).successCount = stFix.successCount ∧
     (exec_step rFix kFail stFix opConflictFix).errorCount = stFix.errorCount) ∧
    ((exec_step rFix kOk stFix opFix).successCount = stFix.successCount + 1 ∧
     (exec_step rFix kOk stFix opFix).errorCount = stFix.errorCount) ∧
    ((exec_step rFix kFail stFix opFix).errorCount = stFix.errorCount + 1 ∧
     (exec_step rFix kFail stFix opFix).successCount = stFix.successCount) ∧
    (execute_renames rFix kFail stFix.world [opFix]).isOk = true :=
  ⟨(c4_executor_accounting rFix kFail stFix opConflictFix stFix.world [] []).1
      (by decide),
   ((c4_executor_accounting rFix kOk stFix opFix stFix.world [] []).2.1
      (by decide)).1 (Or.inr (by decide)),
   ((c4_executor_accounting rFix kFail stFix opFix stFix.world [] []).2.1
      (by decide)).2 (by decide) (by decide),
   (c4_executor_accounting rFix kFail stFix opFix stFix.world [opFix] []).2.2.2⟩

/-- C5: in dry-run mode the executor performs no filesystem mutation, counts
one success per non-conflicting operation and no errors, and reports every
non-conflicting would-be rename even when quiet is enabled (the statement
places no condition on the quiet flag). -/
theorem c5_dry_run_no_mutation (r : SubtitleRenamer) (k : FsPath → FsPath → Bool)
    (world : List FsPath) (ops : List RenameOperation)
    (hdry : r.args.dry_run = true) :
    ∃ st, execute_renames r k world ops = .ok st ∧
      st.world = world ∧ st.errorCount = 0 ∧
      st.successCount = (ops.filter (fun op =>
        decide (¬(op.tgt ∈ world ∧ op.src ≠ op.tgt)))).length ∧
      (∀ op ∈ ops, ¬(op.tgt ∈ world ∧ op.src ≠ op.tgt) →
        Msg.dryRunMsg op.src op.tgt ∈ st.msgs) := by
  unfold execute_renames
  by_cases he : ops.isEmpty
  · rw [if_pos he]
    have hnil : ops = [] := List.isEmpty_iff.mp he
    subst hnil
    exact ⟨_, rfl, rfl, rfl, by simp, by simp⟩
  · rw [if_neg he]
    obtain ⟨hw, herr, hsucc, hsub, hd⟩ :=
      dry_fold_aux r k hdry ops ⟨world, 0, 0, []⟩
    refine ⟨_, rfl, ?_, ?_, ?_, ?_⟩
    · simpa using hw
    · simpa using herr
    · simpa using hsucc
    · intro op hop hnc
      have hmem := hd op hop hnc
      simp only [ExecState.msgs]
      exact List.mem_append_left _ hmem

/-- C5 witness: with dry-run and quiet both on, a non-conflicting operation
mutates nothing, counts one success, and its would-be rename is reported. -/
theorem c5_witness :
    rDryQuiet.args.dry_run = true ∧
    (∃ st, execute_renames rDryQuiet kFail [pSub, pVid] [opFix] = .ok st ∧
      st.world = [pSub, pVid] ∧ st.errorCount = 0 ∧
      st.successCount = ([opFix].filter (fun op =>
        decide (¬(op.tgt ∈ [pSub, pVid] ∧ op.src ≠ op.tgt)))).length ∧
      (∀ op ∈ [opFix], ¬(op.tgt ∈ [pSub, pVid] ∧ op.src ≠ op.tgt) →
        Msg.dryRunMsg op.src op.tgt ∈ st.msgs)) :=
  ⟨rfl, c5_dry_run_no_mutation rDryQuiet kFail [pSub, pVid] [opFix] rfl⟩
